import Mathlib

/-!
Verification of the RIASEC scoring and deterministic report-composition
pipeline (`src/backend/services/riasecScoring.js`,
`src/backend/services/riasecReportGenerator.js` and the RIASEC portion of
`src/backend/routes/studentResult.js`).

Numbers are modelled as rationals (`ℚ`); the JavaScript `Math.round` is
`Int.floor (x + 1/2)`, which matches its behaviour on all finite inputs.
Database rows (sections, questions, answers) are modelled as plain lists;
the Sequelize `findAll`/`include` queries become list filters and joins,
`Question.update` becomes a pure update of the question list, and
`reload()` becomes a lookup of the updated row by id.
-/

namespace Riasec

/-- JavaScript `Math.round`: round half away from zero upwards, i.e.
`floor (x + 1/2)` for all finite inputs. -/
def jsRound (x : ℚ) : ℤ := Rat.floor (x + 1/2)

/-- Rounding to two decimal places, `Math.round(x * 100) / 100`. -/
def round2 (x : ℚ) : ℚ := (jsRound (x * 100) : ℚ) / 100

/-- JavaScript `Math.max` on two numbers. -/
def jsMax (a b : ℚ) : ℚ := if a ≤ b then b else a

/-- JavaScript `Math.min` on two numbers. -/
def jsMin (a b : ℚ) : ℚ := if a ≤ b then a else b

/-- JavaScript `Math.abs`. -/
def jsAbs (a : ℚ) : ℚ := if a < 0 then -a else a

/-- Clamp to the interval `[0, 100]`, `Math.min(100, Math.max(0, x))`. -/
def clamp100 (x : ℚ) : ℚ := jsMin 100 (jsMax 0 x)

/-- JavaScript string-or-default: `x || d` where `undefined`/missing is
modelled as the empty string (the only falsy string is `""`). -/
def strOr (x d : String) : String := if x = "" then d else x

/-- Whitespace characters skipped by `parseFloat` (the ASCII ones; the
source data never contains the more exotic Unicode space characters). -/
def jsWhitespace (c : Char) : Bool :=
  c = ' ' || c = '\t' || c = '\n' || c = '\r'

/-- Model of JavaScript `String.prototype.trim` (drop leading and
trailing whitespace), written over the character list so that it reduces
in the kernel. -/
def jsTrim (s : String) : String :=
  ⟨((s.data.dropWhile jsWhitespace).reverse.dropWhile jsWhitespace).reverse⟩

/-- ASCII upper-casing of one character. -/
def upChar (c : Char) : Char :=
  if 'a' ≤ c ∧ c ≤ 'z' then Char.ofNat (c.toNat - 32) else c

/-- Model of JavaScript `String.prototype.toUpperCase` (the data only ever
holds ASCII text). -/
def jsToUpper (s : String) : String := ⟨s.data.map upChar⟩

/-- Split a character list at every occurrence of a separator character. -/
def splitCharAux (sep : Char) : List Char → List Char → List (List Char)
  | [], acc => [acc.reverse]
  | c :: cs, acc =>
      if c = sep then acc.reverse :: splitCharAux sep cs []
      else splitCharAux sep cs (c :: acc)

/-- Model of JavaScript `String.prototype.split` with a one-character
separator (the source only ever splits on `'-'`). -/
def jsSplit (sep : Char) (s : String) : List String :=
  (splitCharAux sep s.data []).map fun cs => ⟨cs⟩

/-- Numeric value of a digit list read in base 10. -/
def digitsVal (cs : List Char) : ℕ :=
  cs.foldl (fun a c => 10 * a + (c.toNat - 48)) 0

/-- Parse an unsigned decimal mantissa (digits, optional point, digits) as a
longest valid prefix; `none` when no digit is consumed.  Returns the value
and the unconsumed rest. -/
def parseMantissa (cs : List Char) : Option (ℚ × List Char) :=
  let intDigits := cs.takeWhile Char.isDigit
  let rest1 := cs.drop intDigits.length
  match rest1 with
  | '.' :: rest2 =>
      let fracDigits := rest2.takeWhile Char.isDigit
      let rest3 := rest2.drop fracDigits.length
      if intDigits.isEmpty ∧ fracDigits.isEmpty then none
      else
        some ((digitsVal intDigits : ℚ) +
          (digitsVal fracDigits : ℚ) / (10 : ℚ) ^ fracDigits.length, rest3)
  | _ =>
      if intDigits.isEmpty then none else some ((digitsVal intDigits : ℚ), rest1)

/-- Apply an optional exponent part (`e`/`E`, optional sign, digits) to a
mantissa; a malformed exponent is ignored, as `parseFloat` only consumes
the longest valid numeric prefix. -/
def applyExponent (m : ℚ) (cs : List Char) : ℚ :=
  match cs with
  | c :: rest =>
      if c = 'e' ∨ c = 'E' then
        let signed : ℤ × List Char :=
          match rest with
          | '+' :: r => (1, r)
          | '-' :: r => (-1, r)
          | r => (1, r)
        let ds := signed.2.takeWhile Char.isDigit
        if ds.isEmpty then m else m * (10 : ℚ) ^ (signed.1 * (digitsVal ds : ℤ))
      else m
  | [] => m

/-- Model of JavaScript `parseFloat`: skip leading whitespace, optional
sign, then the longest decimal-literal prefix; `none` models `NaN`. -/
def jsParseFloat (s : String) : Option ℚ :=
  let cs := s.data.dropWhile jsWhitespace
  let signed : ℚ × List Char :=
    match cs with
    | '+' :: r => (1, r)
    | '-' :: r => (-1, r)
    | r => (1, r)
  match parseMantissa signed.2 with
  | some (m, rest) => some (signed.1 * applyExponent m rest)
  | none => none

/-- The Likert letter map of `riasecScoring.js`: `{A:1, B:2, C:3, D:4, E:5}`
looked up with the whole (already trimmed and upper-cased) answer text. -/
def likertMap (s : String) : Option ℚ :=
  if s = "A" then some 1
  else if s = "B" then some 2
  else if s = "C" then some 3
  else if s = "D" then some 4
  else if s = "E" then some 5
  else none

/-- Per-answer value extraction (`riasecScoring.js` lines 136-161):
Likert questions map the trimmed upper-cased text through the letter map
with fallback 3; multiple-choice questions try the letter map first and
fall back to `parseFloat` with default 0; all other kinds contribute 0. -/
def answerValue (questionType : String) (text : String) : ℚ :=
  if questionType = "LIKERT_SCALE" then
    match likertMap (jsToUpper (jsTrim text)) with
    | some v => v
    | none => 3
  else if questionType = "MULTIPLE_CHOICE" then
    match likertMap (jsToUpper (jsTrim text)) with
    | some v => v
    | none =>
        match jsParseFloat text with
        | some v => v
        | none => 0
  else 0

/-- A section row (`Section` model): primary key, position, display name. -/
structure Sec where
  id : ℕ
  order_index : ℕ
  name : String
deriving DecidableEq, Repr

/-- A question row (`Question` model), restricted to the fields the scoring
pipeline reads and writes. -/
structure Question where
  id : ℕ
  section_id : ℕ
  order_index : ℕ
  category : Option String
  question_type : String
deriving DecidableEq, Repr

/-- An answer row (`Answer` model). -/
structure Answer where
  test_attempt_id : ℕ
  question_id : ℕ
  answer_text : String
deriving DecidableEq, Repr

/-- The slice of the database the scoring service touches. -/
structure DB where
  sections : List Sec
  questions : List Question
  answers : List Answer
deriving DecidableEq, Repr

/-- The result object of `calculateRIASECScores`: the six percentage scores
plus the explicit (never thrown) error value. -/
structure ScoresResult where
  R : ℚ
  I : ℚ
  A : ℚ
  S : ℚ
  E : ℚ
  C : ℚ
  error : Option String
deriving DecidableEq, Repr

/-- All-zero result carrying an error message. -/
def mkErr (msg : String) : ScoresResult := ⟨0, 0, 0, 0, 0, 0, some msg⟩

/-- Fixed mapping from section position to RIASEC code
(`orderToRIASEC` in `riasecScoring.js`). -/
def orderToRIASEC (o : ℕ) : Option String :=
  if o = 5 then some "R"
  else if o = 6 then some "I"
  else if o = 7 then some "A"
  else if o = 8 then some "S"
  else if o = 9 then some "E"
  else if o = 10 then some "C"
  else none

/-- The six valid dimension codes. -/
def riasecCodes : List String := ["R", "I", "A", "S", "E", "C"]

/-- Normalised category as computed by the source:
`question.category ? question.category.trim().toUpperCase() : null`
(the empty string is falsy in JavaScript). -/
def normCategory : Option String → Option String
  | none => none
  | some s => if s = "" then none else some (jsToUpper (jsTrim s))

/-- Valid category test: the normalised category is one of the six codes
(`!currentCategory || !['R',...].includes(currentCategory)` negated). -/
def isValidCategory (c : Option String) : Bool :=
  match normCategory c with
  | some s => riasecCodes.contains s
  | none => false

/-- One row of the `Answer.findAll` query with its joined question and
section (`include` with `required: true` on both levels). -/
structure JoinedAnswer where
  ans : Answer
  q : Question
  sec : Sec
deriving DecidableEq, Repr

/-- The RIASEC sections: `Section.findAll({where: {order_index: [5..10]}})`.
The `ORDER BY order_index` of the source only affects list order, which is
never observed (the list is used for emptiness and ids only). -/
def riasecSectionsOf (db : DB) : List Sec :=
  db.sections.filter fun s => [5, 6, 7, 8, 9, 10].contains s.order_index

/-- The answers of the attempt joined (inner join, SQL semantics) with
their question — restricted to questions of the RIASEC sections — and
with that question's section. -/
def joinedAnswers (db : DB) (attemptId : ℕ) (sectionIds : List ℕ) :
    List JoinedAnswer :=
  db.answers.flatMap fun a =>
    if a.test_attempt_id = attemptId then
      (db.questions.filter fun q =>
          q.id == a.question_id && sectionIds.contains q.section_id).flatMap
        fun q =>
          (db.sections.filter fun s => s.id == q.section_id).map
            fun s => ⟨a, q, s⟩
    else []

/-- The join actually performed by `calculateRIASECScores` (empty when the
section lookup already failed, because the function returns early). -/
def joinRows (db : DB) (attemptId : ℕ) : List JoinedAnswer :=
  if (riasecSectionsOf db).isEmpty then []
  else joinedAnswers db attemptId ((riasecSectionsOf db).map (·.id))

/-- The self-healing pass (`riasecScoring.js` lines 65-78): for every
joined answer whose question lacks a valid category, record the update
assigning the code implied by the question's section. -/
def categoryUpdates (rows : List JoinedAnswer) : List (ℕ × String) :=
  rows.filterMap fun r =>
    match orderToRIASEC r.sec.order_index with
    | none => none
    | some code =>
        if isValidCategory r.q.category then none else some (r.q.id, code)

/-- One `Question.update({category}, {where: {id}})`: set the category of
every question row with the given id. -/
def applyUpdate (qs : List Question) (u : ℕ × String) : List Question :=
  qs.map fun q => if q.id == u.1 then { q with category := some u.2 } else q

/-- Apply the recorded updates in order (the source loops over
`questionIdsToUpdate`; in this model every write succeeds). -/
def applyUpdates (qs : List Question) (us : List (ℕ × String)) :
    List Question :=
  us.foldl applyUpdate qs

/-- The updates computed by a run of the scoring service. -/
def backfillUpdates (db : DB) (attemptId : ℕ) : List (ℕ × String) :=
  categoryUpdates (joinRows db attemptId)

/-- The question store after the backfill writes of a run. -/
def questionsAfter (db : DB) (attemptId : ℕ) : List Question :=
  applyUpdates db.questions (backfillUpdates db attemptId)

/-- The scoring loop's view of each answer's question: the source calls
`answer.question.reload()` (a primary-key refetch) only when at least one
category was assigned. -/
def effectiveRows (db : DB) (attemptId : ℕ) : List (Question × Answer) :=
  let us := backfillUpdates db attemptId
  (joinRows db attemptId).map fun r =>
    (if us.isEmpty then r.q
     else ((questionsAfter db attemptId).find? fun q => q.id == r.q.id).getD r.q,
     r.ans)

/-- A per-dimension accumulator (`{total, count}`). -/
structure Acc where
  total : ℚ
  count : ℕ
deriving DecidableEq, Repr

/-- The six accumulators (`riasecScores` in the source). -/
structure AccMap where
  R : Acc
  I : Acc
  A : Acc
  S : Acc
  E : Acc
  C : Acc
deriving DecidableEq, Repr

/-- All-zero accumulators. -/
def AccMap.init : AccMap := ⟨⟨0, 0⟩, ⟨0, 0⟩, ⟨0, 0⟩, ⟨0, 0⟩, ⟨0, 0⟩, ⟨0, 0⟩⟩

/-- Add a value to the accumulator of one code. -/
def AccMap.add (m : AccMap) (code : String) (v : ℚ) : AccMap :=
  if code = "R" then { m with R := ⟨m.R.total + v, m.R.count + 1⟩ }
  else if code = "I" then { m with I := ⟨m.I.total + v, m.I.count + 1⟩ }
  else if code = "A" then { m with A := ⟨m.A.total + v, m.A.count + 1⟩ }
  else if code = "S" then { m with S := ⟨m.S.total + v, m.S.count + 1⟩ }
  else if code = "E" then { m with E := ⟨m.E.total + v, m.E.count + 1⟩ }
  else if code = "C" then { m with C := ⟨m.C.total + v, m.C.count + 1⟩ }
  else m

/-- Project the accumulator of one code. -/
def AccMap.get (m : AccMap) (code : String) : Acc :=
  if code = "R" then m.R
  else if code = "I" then m.I
  else if code = "A" then m.A
  else if code = "S" then m.S
  else if code = "E" then m.E
  else if code = "C" then m.C
  else ⟨0, 0⟩

/-- One iteration of the scoring loop: skip questions without a valid
category, otherwise accumulate the extracted answer value under the
stored (normalised) category. -/
def accStep (m : AccMap) (qa : Question × Answer) : AccMap :=
  match normCategory qa.1.category with
  | some cat =>
      if riasecCodes.contains cat then
        m.add cat (answerValue qa.1.question_type qa.2.answer_text)
      else m
  | none => m

/-- The accumulators after the scoring loop of a run. -/
def accMap (db : DB) (attemptId : ℕ) : AccMap :=
  (effectiveRows db attemptId).foldl accStep AccMap.init

/-- Normalisation (`riasecScoring.js` lines 182-189): dimensions without
contributions stay 0; otherwise the average is mapped from `[1,5]` to
`[0,100]`, rounded to two decimals, then clamped. -/
def finalScore (a : Acc) : ℚ :=
  if a.count = 0 then 0
  else clamp100 (round2 ((a.total / (a.count : ℚ) - 1) / 4 * 100))

/-- Total contribution count over all six dimensions. -/
def AccMap.totalCount (m : AccMap) : ℕ :=
  m.R.count + m.I.count + m.A.count + m.S.count + m.E.count + m.C.count

/-- The scoring service `calculateRIASECScores` of `riasecScoring.js`.
Besides the result object it returns the database as left behind by the
backfill writes.  The ambient `try/catch` of the source is vacuous here:
the model is a total function, so no exception crosses the boundary. -/
def calculateRIASECScores (db : DB) (attemptId : ℕ) : ScoresResult × DB :=
  if (riasecSectionsOf db).isEmpty then
    (mkErr "RIASEC sections (5-10) not found", db)
  else if (joinRows db attemptId).isEmpty then
    (mkErr "No answers found for RIASEC section questions", db)
  else
    let m := accMap db attemptId
    ({ R := finalScore m.R, I := finalScore m.I, A := finalScore m.A,
       S := finalScore m.S, E := finalScore m.E, C := finalScore m.C,
       error :=
         if m.totalCount = 0 then
           some "No valid RIASEC category questions found in RIASEC sections (5-10)"
         else none },
     { db with questions := questionsAfter db attemptId })

/-- Project the score of one code out of a result. -/
def scoreOf (r : ScoresResult) (code : String) : ℚ :=
  if code = "R" then r.R
  else if code = "I" then r.I
  else if code = "A" then r.A
  else if code = "S" then r.S
  else if code = "E" then r.E
  else if code = "C" then r.C
  else 0

end Riasec

namespace Riasec

/-- Six-score input of the report generator. -/
structure Scores where
  R : ℚ
  I : ℚ
  A : ℚ
  S : ℚ
  E : ℚ
  C : ℚ
deriving DecidableEq, Repr

/-- One entry of the `scoreMap` array of `riasecReportGenerator.js`. -/
structure TraitEntry where
  code : String
  label : String
  title : String
  score : ℚ
deriving DecidableEq, Repr

/-- The `scoreMap` array: the six codes with labels, titles and scores. -/
def scoreMap (s : Scores) : List TraitEntry :=
  [⟨"R", "Realistic", "Realistic (Doers)", s.R⟩,
   ⟨"I", "Investigative", "Investigative (Thinkers)", s.I⟩,
   ⟨"A", "Artistic", "Artistic (Creators)", s.A⟩,
   ⟨"S", "Social", "Social (Helpers)", s.S⟩,
   ⟨"E", "Enterprising", "Enterprising (Persuaders)", s.E⟩,
   ⟨"C", "Conventional", "Conventional (Organizers)", s.C⟩]

/-- Alphabetical key of a code letter (`localeCompare` on the six
single-letter codes orders them alphabetically). -/
def codeKey (c : String) : ℕ :=
  if c = "A" then 0
  else if c = "C" then 1
  else if c = "E" then 2
  else if c = "I" then 3
  else if c = "R" then 4
  else if c = "S" then 5
  else 6

/-- The comparator of the sort at lines 282-285: descending score,
ties broken by ascending alphabetical code (non-strict version). -/
def traitLE (x y : TraitEntry) : Prop :=
  y.score < x.score ∨ (x.score = y.score ∧ codeKey x.code ≤ codeKey y.code)

/-- Strict version of the ranking order. -/
def traitLT (x y : TraitEntry) : Prop :=
  y.score < x.score ∨ (x.score = y.score ∧ codeKey x.code < codeKey y.code)

instance : DecidableRel traitLE := fun x y => by
  unfold traitLE; infer_instance

instance : DecidableRel traitLT := fun x y => by
  unfold traitLT; infer_instance

instance : IsTotal TraitEntry traitLE where
  total x y := by
    unfold traitLE
    rcases lt_trichotomy x.score y.score with h | h | h
    · exact Or.inr (Or.inl h)
    · rcases Nat.le_total (codeKey x.code) (codeKey y.code) with hk | hk
      · exact Or.inl (Or.inr ⟨h, hk⟩)
      · exact Or.inr (Or.inr ⟨h.symm, hk⟩)
    · exact Or.inl (Or.inl h)

instance : IsTrans TraitEntry traitLE where
  trans x y z hxy hyz := by
    unfold traitLE at *
    rcases hxy with h1 | ⟨h1, hk1⟩
    · rcases hyz with h2 | ⟨h2, _⟩
      · exact Or.inl (h2.trans h1)
      · exact Or.inl (h2 ▸ h1)
    · rcases hyz with h2 | ⟨h2, hk2⟩
      · exact Or.inl (h1 ▸ h2)
      · exact Or.inr ⟨h1.trans h2, hk1.trans hk2⟩

instance : IsAntisymm TraitEntry traitLT where
  antisymm x y hxy hyx := by
    unfold traitLT at *
    rcases hxy with h1 | ⟨h1, hk1⟩ <;> rcases hyx with h2 | ⟨h2, hk2⟩
    · exact absurd (h1.trans h2) (lt_irrefl _)
    · exact absurd h1 (h2 ▸ lt_irrefl _)
    · exact absurd h2 (h1 ▸ lt_irrefl _)
    · exact absurd (hk1.trans hk2) (lt_irrefl _)

/-- The ranked six `(code, score)` entries (`sortedScores` in the source;
any sort agreeing with the comparator produces this unique order). -/
def rank (s : Scores) : List TraitEntry :=
  List.insertionSort traitLE (scoreMap s)

/-- Score at a rank position (`sortedScores[i].score`; positions 0-5 are
always in bounds, the default is never used). -/
def rankScore (s : Scores) (i : ℕ) : ℚ :=
  (((rank s).get? i).map (·.score)).getD 0

/-- Code at a rank position (`sortedScores[i].code`). -/
def rankCode (s : Scores) (i : ℕ) : String :=
  (((rank s).get? i).map (·.code)).getD ""

/-- An entry of `topTraits`: code, label and rounded score. -/
structure TopTrait where
  code : String
  label : String
  score : ℤ
deriving DecidableEq, Repr

/-- The `topTraits` array: the first three ranked entries with the score
rounded (`Math.round`). -/
def topTraits (s : Scores) : List TopTrait :=
  ((rank s).take 3).map fun e => ⟨e.code, e.label, jsRound e.score⟩

/-- Decision-risk classification (`riasecReportGenerator.js` lines
292-318), returning the `(level, stability)` pair. -/
def decisionRisk (s : Scores) : String × String :=
  let topScore := rankScore s 0
  let secondScore := rankScore s 1
  let thirdScore := rankScore s 2
  let diffTopSecond := topScore - secondScore
  let diffSecondThird := secondScore - thirdScore
  if diffTopSecond < 10 ∧ diffSecondThird < 10 then
    ("Moderate Risk", "Developing")
  else if 15 ≤ diffTopSecond ∧ 10 ≤ diffSecondThird then
    ("Low Risk", "Highly Stable")
  else if topScore < 50 ∨ topScore - rankScore s 5 < 20 then
    ("High Risk", "Developing")
  else
    ("Moderate Risk", "Moderately Stable")

/-- The four-branch decision-risk rule exactly as the claim states it, as
a function of the ranked top three scores and the lowest of all six
scores: this is the reference the code is compared against. -/
def claimDecisionRisk (top second third lowest : ℚ) : String × String :=
  if top - second < 10 ∧ second - third < 10 then
    ("Moderate Risk", "Developing")
  else if 15 ≤ top - second ∧ 10 ≤ second - third then
    ("Low Risk", "Highly Stable")
  else if top < 50 ∨ top - lowest < 20 then
    ("High Risk", "Developing")
  else
    ("Moderate Risk", "Moderately Stable")

/-- Minimum of the six input scores. -/
def minSix (s : Scores) : ℚ :=
  min (min (min (min (min s.R s.I) s.A) s.S) s.E) s.C

/-- Match-level banding (`getMatchLevel`). -/
def getMatchLevel (score : ℚ) : String :=
  if 30 ≤ score then "HIGH MATCH"
  else if 15 ≤ score then "MODERATE MATCH"
  else "LOW MATCH"

/-- Score lookup by code letter (`allScores[code] || 0`; an unknown key
and a zero score both give 0). -/
def lookupScore (s : Scores) (code : String) : ℚ :=
  if code = "R" then s.R
  else if code = "I" then s.I
  else if code = "A" then s.A
  else if code = "S" then s.S
  else if code = "E" then s.E
  else if code = "C" then s.C
  else 0

/-- `top3Codes.indexOf(code)` for the three-element code array. -/
def idxOf3 (t0 t1 t2 code : String) : ℤ :=
  if code = t0 then 0
  else if code = t1 then 1
  else if code = t2 then 2
  else -1

/-- Confidence classification (`calculateConfidence`, lines 41-82) from
the pathway's mix string, the top-3 ranked codes, the top-3 ranked scores
and the six raw scores.  Returns `(level, label)`. -/
def calculateConfidence (riasecMix : String) (t0 t1 t2 : String)
    (topScore secondScore thirdScore : ℚ) (allScores : Scores) :
    String × String :=
  let pathwayCodes := jsSplit '-' riasecMix
  if pathwayCodes.length < 2 then ("LOW", "Low Confidence")
  else
    let primaryCode := pathwayCodes.getD 0 ""
    let secondaryCode := pathwayCodes.getD 1 ""
    let tertiaryCode := pathwayCodes.getD 2 ""
    let primaryScore := lookupScore allScores primaryCode
    let secondaryScore := lookupScore allScores secondaryCode
    let tertiaryScore :=
      if tertiaryCode ≠ "" then lookupScore allScores tertiaryCode else 0
    let primaryRank := idxOf3 t0 t1 t2 primaryCode
    let secondaryRank := idxOf3 t0 t1 t2 secondaryCode
    let tertiaryRank :=
      if tertiaryCode ≠ "" then idxOf3 t0 t1 t2 tertiaryCode else -1
    let primaryGap := if primaryRank = 0 then 0 else topScore - primaryScore
    let secondaryGap :=
      if 0 ≤ secondaryRank then
        jsAbs ((if secondaryRank = 0 then topScore
          else if secondaryRank = 1 then secondScore
          else thirdScore) - secondaryScore)
      else topScore - secondaryScore
    let matchesInTop3 :=
      ([primaryRank, secondaryRank, tertiaryRank].filter fun r => 0 ≤ r).length
    let avgScore := (primaryScore + secondaryScore + tertiaryScore) /
      (if tertiaryCode ≠ "" then 3 else 2)
    let avgTopScore := (topScore + secondScore + thirdScore) / 3
    let scoreFit := avgScore / jsMax avgTopScore 1
    let gapPenalty := (primaryGap + secondaryGap) / jsMax topScore 1
    if primaryRank = 0 ∧ secondaryRank = 1 ∧ 2 ≤ matchesInTop3 ∧
        30 ≤ primaryScore ∧ (0.85 : ℚ) ≤ scoreFit ∧ gapPenalty ≤ (0.15 : ℚ) then
      ("HIGH", "High Confidence")
    else if primaryRank = 0 ∧ 2 ≤ matchesInTop3 ∧ 25 ≤ primaryScore ∧
        (0.7 : ℚ) ≤ scoreFit ∧ gapPenalty ≤ (0.25 : ℚ) then
      ("MODERATE", "Moderate Confidence")
    else if 0 ≤ primaryRank ∧ primaryRank ≤ 2 ∧ 1 ≤ matchesInTop3 ∧
        20 ≤ primaryScore ∧ (0.6 : ℚ) ≤ scoreFit then
      ("MODERATE", "Moderate Confidence")
    else ("LOW", "Low Confidence")

/-- The fixed degree list (`allDegrees`). -/
def allDegrees : List String :=
  ["BCA", "MCA", "M.Sc (IT)", "M.Sc (Computer Science)", "B.Tech (CS)",
   "B.Tech (IT)", "B.E. (Computer Engineering)", "B.Sc (IT)",
   "B.Sc (Computer Science)", "B.Voc (SD)"]

/-- The fixed role list (`allRoles`). -/
def allRoles : List String :=
  ["Full Stack Developer", "Frontend Developer", "Backend Developer",
   "Mobile App Developer", "Data Analyst", "Data Scientist",
   "Data Engineer", "DevOps Engineer", "Cloud Engineer", "Web Designer",
   "UI/UX Designer", "Product Designer", "Software Tester",
   "Cybersecurity Analyst", "AI / ML Engineer", "Game Developer"]

/-- Degree by ordered code pair (`calculateDegree`). -/
def calculateDegree (p s : String) : String :=
  if p = "I" ∧ s = "A" then allDegrees.getD 4 ""
  else if p = "A" ∧ s = "I" then allDegrees.getD 0 ""
  else if p = "I" ∧ s = "C" then allDegrees.getD 2 ""
  else if p = "C" ∧ s = "I" then allDegrees.getD 5 ""
  else if p = "A" ∧ s = "C" then allDegrees.getD 0 ""
  else if p = "C" ∧ s = "A" then allDegrees.getD 9 ""
  else if p = "R" ∧ s = "I" then allDegrees.getD 6 ""
  else if p = "I" ∧ s = "R" then allDegrees.getD 4 ""
  else if p = "R" ∧ s = "A" then allDegrees.getD 6 ""
  else if p = "A" ∧ s = "R" then allDegrees.getD 0 ""
  else if p = "R" ∧ s = "C" then allDegrees.getD 6 ""
  else if p = "C" ∧ s = "R" then allDegrees.getD 5 ""
  else if p = "S" ∧ s = "I" then allDegrees.getD 8 ""
  else if p = "I" ∧ s = "S" then allDegrees.getD 1 ""
  else if p = "S" ∧ s = "A" then allDegrees.getD 7 ""
  else if p = "A" ∧ s = "S" then allDegrees.getD 0 ""
  else if p = "S" ∧ s = "C" then allDegrees.getD 7 ""
  else if p = "C" ∧ s = "S" then allDegrees.getD 5 ""
  else if p = "E" ∧ s = "I" then allDegrees.getD 4 ""
  else if p = "E" ∧ s = "A" then allDegrees.getD 0 ""
  else if p = "E" ∧ s = "C" then allDegrees.getD 5 ""
  else if p = "E" ∧ s = "S" then allDegrees.getD 7 ""
  else if p = "E" ∧ s = "R" then allDegrees.getD 6 ""
  else if p = "I" ∧ s = "E" then allDegrees.getD 4 ""
  else if p = "A" ∧ s = "E" then allDegrees.getD 0 ""
  else if p = "C" ∧ s = "E" then allDegrees.getD 5 ""
  else if p = "S" ∧ s = "E" then allDegrees.getD 7 ""
  else if p = "R" ∧ s = "E" then allDegrees.getD 6 ""
  else allDegrees.getD 4 ""

/-- Role by ordered code pair (`calculateRole`). -/
def calculateRole (p s : String) : String :=
  if p = "I" ∧ s = "A" then "Data Scientist"
  else if p = "I" ∧ s = "C" then "Data Engineer"
  else if p = "A" ∧ s = "I" then "UI/UX Designer"
  else if p = "A" ∧ s = "C" then "Web Designer"
  else if p = "C" ∧ s = "I" then "Data Analyst"
  else if p = "C" ∧ s = "A" then "Software Tester"
  else if p = "I" ∧ s = "R" then "AI / ML Engineer"
  else if p = "R" ∧ s = "I" then "DevOps Engineer"
  else if p = "A" ∧ s = "S" then "Product Designer"
  else if p = "S" ∧ s = "A" then "Frontend Developer"
  else if p = "I" ∧ s = "S" then "Backend Developer"
  else if p = "S" ∧ s = "I" then "Full Stack Developer"
  else if p = "R" ∧ s = "C" then "Cybersecurity Analyst"
  else if p = "C" ∧ s = "R" then "Backend Developer"
  else if p = "A" ∧ s = "R" then "Game Developer"
  else if p = "R" ∧ s = "A" then "Cybersecurity Analyst"
  else if p = "S" ∧ s = "C" then "Mobile App Developer"
  else if p = "C" ∧ s = "S" then "Frontend Developer"
  else "Full Stack Developer"

/-- Role-to-persona lookup table (`personaMap`). -/
def personaMap : List (String × String) :=
  [("Data Scientist", "The Insight Architect"),
   ("Data Engineer", "The Analytical Strategist"),
   ("UI/UX Designer", "The Creative Innovator"),
   ("Web Designer", "The Design Visionary"),
   ("Data Analyst", "The Precision Analyst"),
   ("Software Tester", "The Quality Specialist"),
   ("AI / ML Engineer", "The Intelligent Builder"),
   ("DevOps Engineer", "The Technical Architect"),
   ("Product Designer", "The User Experience Creator"),
   ("Frontend Developer", "The Interface Designer"),
   ("Backend Developer", "The System Architect"),
   ("Full Stack Developer", "The Solution Integrator"),
   ("Mobile App Developer", "The Mobile Innovator"),
   ("Cloud Engineer", "The Infrastructure Specialist"),
   ("Cybersecurity Analyst", "The Security Guardian"),
   ("Game Developer", "The Interactive Creator")]

/-- Persona for a role (`calculatePersona`). -/
def calculatePersona (role : String) : String :=
  (personaMap.lookup role).getD "The Technical Professional"

/-- Role-to-focus lookup table (`focusMap`; sentences abbreviated to the
role-discriminating part is not allowed here, so they are verbatim). -/
def focusMap : List (String × String) :=
  [("Data Scientist", "Analyzing complex data patterns and creating innovative solutions through research and creative problem-solving."),
   ("Data Engineer", "Building robust data infrastructure and systems with analytical precision and structured methodologies."),
   ("UI/UX Designer", "Designing intuitive user experiences by combining creative vision with analytical insights."),
   ("Web Designer", "Creating visually compelling digital products through systematic design processes."),
   ("Data Analyst", "Ensuring data quality and system reliability through meticulous analysis and testing."),
   ("Software Tester", "Maintaining software quality standards through systematic testing and creative problem-solving approaches."),
   ("AI / ML Engineer", "Developing intelligent systems and algorithms that solve real-world technical challenges."),
   ("DevOps Engineer", "Architecting scalable infrastructure solutions with technical expertise and innovative approaches."),
   ("Product Designer", "Creating user-centered design solutions that balance creativity with technical feasibility."),
   ("Frontend Developer", "Building engaging user interfaces that combine aesthetic design with functional requirements."),
   ("Backend Developer", "Designing and implementing backend systems that integrate complex technical requirements."),
   ("Full Stack Developer", "Developing end-to-end solutions that seamlessly connect frontend and backend technologies."),
   ("Mobile App Developer", "Creating mobile applications that deliver seamless user experiences across platforms."),
   ("Cloud Engineer", "Designing and managing cloud infrastructure solutions for scalable and reliable systems."),
   ("Cybersecurity Analyst", "Protecting digital assets through systematic security analysis and threat mitigation."),
   ("Game Developer", "Creating interactive entertainment experiences through creative design and technical implementation.")]

/-- Focus sentence for a role (`calculateFocus`). -/
def calculateFocus (role : String) : String :=
  (focusMap.lookup role).getD
    "Developing software solutions through systematic analysis and implementation."

end Riasec

namespace Riasec

/-- A candidate role with its mix string (`roleData` items; the source
attaches `riasecMix: primaryRiasecMix` to every item). -/
structure RoleItem where
  role : String
  riasecMix : String
deriving DecidableEq, Repr

/-- One produced career-pathway entry. -/
structure Pathway where
  degree : String
  riasecMix : String
  careerRole : String
  professionalPersona : String
  coreTasksFocus : String
  confidence : String
  confidenceLevel : String
deriving DecidableEq, Repr

/-- Keep the first occurrence of each key
(`filter((item, index, self) => index === self.findIndex(...))`). -/
def dedupByKey (key : α → String) : List α → List String → List α
  | [], _ => []
  | x :: xs, seen =>
      if seen.contains (key x) then dedupByKey key xs seen
      else x :: dedupByKey key xs (key x :: seen)

/-- The mix string `"t0-t1-t2"` built from the top-3 ranked codes. -/
def mixString (t0 t1 t2 : String) : String :=
  t0 ++ "-" ++ t1 ++ "-" ++ t2

/-- The up-to-three pair-derived roles, deduplicated by role name. -/
def roleDataFor (t0 t1 t2 : String) : List RoleItem :=
  dedupByKey (·.role)
    [⟨calculateRole t0 t1, mixString t0 t1 t2⟩,
     ⟨calculateRole t0 t2, mixString t0 t1 t2⟩,
     ⟨calculateRole t1 t2, mixString t0 t1 t2⟩] []

/-- The padded role list: pair-derived roles first, then fallback roles
from `allRoles` (skipping used ones) up to 5 total, capped at 5. -/
def allRoleDataFor (t0 t1 t2 : String) : List RoleItem :=
  let roleData := roleDataFor t0 t1 t2
  let usedRoles := roleData.map (·.role)
  let additionalRoles :=
    ((allRoles.filter fun r => !usedRoles.contains r).take
      (5 - roleData.length)).map fun role => ⟨role, mixString t0 t1 t2⟩
  (roleData ++ additionalRoles).take 5

/-- Keep the first occurrence of each string
(`filter((v, i, a) => a.indexOf(v) === i)`). -/
def dedupFirst (l : List String) : List String := dedupByKey id l []

/-- The candidate degree list: pair-derived degrees over all six ordered
pairs of the top-3 codes, deduplicated, padded with the remaining fixed
degrees, capped at 10.  The `while` loop of the source (lines 228-232) can
never add anything once the list already holds all ten degrees, and it
terminates after at most one push, so it is a single conditional here. -/
def degreesFor (t0 t1 t2 : String) : List String :=
  let degreeCombinations :=
    [(t0, t1), (t0, t2), (t1, t2), (t1, t0), (t2, t0), (t2, t1)]
  let calculatedDegrees :=
    dedupFirst (degreeCombinations.map fun pr => calculateDegree pr.1 pr.2)
  let additionalDegrees :=
    allDegrees.filter fun d => !calculatedDegrees.contains d
  let degrees := (calculatedDegrees ++ additionalDegrees).take 10
  if degrees.length < 5 then
    let remaining := allDegrees.filter fun d => d ≠ "" && !degrees.contains d
    if remaining.isEmpty then degrees else degrees ++ remaining
  else degrees

/-- Degree selection of one loop iteration (lines 241-256): take the
`idx`-th candidate degree, with the fallback cascade for missing or
already-used degrees. -/
def pickDegree (degrees : List String) (used : List String) (idx : ℕ) :
    String :=
  let allDegreesLength := if allDegrees.length = 0 then 1 else allDegrees.length
  let degree0 :=
    strOr (degrees.getD idx "")
      (if 0 < allDegreesLength then allDegrees.getD (idx % allDegreesLength) ""
       else strOr (allDegrees.getD 0 "") "B.Tech (CS)")
  let degree1 :=
    if degree0 = "" ∨ used.contains degree0 then
      let availableDegrees := allDegrees.filter fun d => d ≠ "" && !used.contains d
      let availableLength :=
        if availableDegrees.length = 0 then 1 else availableDegrees.length
      if 0 < availableLength then
        strOr (availableDegrees.getD (idx % availableLength) "")
          (availableDegrees.getD 0 "")
      else if 0 < allDegreesLength then
        allDegrees.getD (idx % allDegreesLength) ""
      else strOr (allDegrees.getD 0 "") "B.Tech (CS)"
    else degree0
  if degree1 = "" then "B.Tech (CS)" else degree1

/-- Assemble one pathway entry from a role item and its chosen degree
(lines 259-268; `roleItem.riasecMix || ''` is the identity on strings). -/
def mkPathway (item : RoleItem) (degree : String)
    (conf : String × String) : Pathway :=
  { degree := degree
    riasecMix := item.riasecMix
    careerRole := strOr item.role "Full Stack Developer"
    professionalPersona :=
      strOr (calculatePersona item.role) "The Technical Professional"
    coreTasksFocus :=
      strOr (calculateFocus item.role)
        "Developing software solutions through systematic analysis and implementation."
    confidence := strOr conf.2 "Moderate Confidence"
    confidenceLevel := strOr conf.1 "MODERATE" }

/-- The `allRoleData.map((roleItem, idx) => ...)` loop with its mutable
`usedDegrees` set, as a recursion over the items. -/
def buildEntries (t0 t1 t2 : String) (tops : ℚ × ℚ × ℚ) (allScores : Scores)
    (degrees : List String) :
    List RoleItem → ℕ → List String → List Pathway
  | [], _, _ => []
  | item :: rest, idx, used =>
      let degree := pickDegree degrees used idx
      let conf := calculateConfidence item.riasecMix t0 t1 t2
        tops.1 tops.2.1 tops.2.2 allScores
      mkPathway item degree conf ::
        buildEntries t0 t1 t2 tops allScores degrees rest (idx + 1)
          (degree :: used)

/-- The deterministic `calculateCareerPathways(top3Codes, scores)` given
the top-3 codes and the top-3 ranked scores it closes over. -/
def calculateCareerPathways (t0 t1 t2 : String) (tops : ℚ × ℚ × ℚ)
    (allScores : Scores) : List Pathway :=
  buildEntries t0 t1 t2 tops allScores (degreesFor t0 t1 t2)
    (allRoleDataFor t0 t1 t2) 0 []

/-- The career pathways derived from a six-score input, with the top-3
codes and scores taken from the ranking (`sortedScores`). -/
def careerPathways (s : Scores) : List Pathway :=
  calculateCareerPathways (rankCode s 0) (rankCode s 1) (rankCode s 2)
    (rankScore s 0, rankScore s 1, rankScore s 2) s

end Riasec

namespace Riasec

/-- Outcome of the external text-generation call, after the retry loop of
`generateRIASECReport` (lines 496-721) has run its course.  The JSON body
of a successful parse is abstracted to the three facts the code inspects:
presence of `riasecProfile`, presence of a `dimensions` array, and any
career-pathway list the generator may have volunteered. -/
inductive GenResponse where
  | apiFailure (msg : String)
  | invalidStructure
  | emptyContent
  | blocked
  | unparsableText
  | parsed (hasRiasecProfile : Bool) (hasDimensions : Bool)
      (genPathways : Option (List Pathway))
deriving DecidableEq, Repr

/-- The report object as returned by `generateRIASECReport`: the parsed
generator payload with the deterministic career-pathway list written over
whatever the generator produced (`report.careerPathways = calculateCareerPathways(...)`,
line 632). -/
structure ComposedReport where
  hasRiasecProfile : Bool
  hasDimensions : Bool
  careerPathways : Option (List Pathway)
deriving DecidableEq, Repr

/-- The result handling of `generateRIASECReport` (lines 528-660): every
generator failure returns `{report: null, error}`; only a structurally
valid parse yields a report, and its `careerPathways` field is
overwritten with the locally computed deterministic list. -/
def generateRIASECReport (s : Scores) (resp : GenResponse) :
    Option ComposedReport × Option String :=
  match resp with
  | .apiFailure msg => (none, some msg)
  | .invalidStructure =>
      (none, some "Invalid response from AI service. Please try again.")
  | .emptyContent =>
      (none, some "AI service returned empty content. Please try again.")
  | .blocked =>
      (none, some "Content was blocked by safety filters. Please try again.")
  | .unparsableText =>
      (none, some "Failed to parse AI response. Please try again.")
  | .parsed hasProfile hasDims _ =>
      if !hasProfile || !hasDims then
        (none, some "Invalid report structure from AI service")
      else
        (some ⟨hasProfile, hasDims, some (careerPathways s)⟩, none)

/-- The RIASEC portion of `GET /student/result/:test_attempt_id`
(`studentResult.js` lines 69-85) on a cache miss: the report is attached
only when scoring produced no error, at least one score is positive, and
report generation succeeded; otherwise `riasec_report` stays `null`. -/
def routeRiasecReport (sr : ScoresResult) (resp : GenResponse) :
    Option (ScoresResult × ComposedReport) :=
  if sr.error = none ∧ (0 < sr.R ∨ 0 < sr.I ∨ 0 < sr.A ∨ 0 < sr.S ∨
      0 < sr.E ∨ 0 < sr.C) then
    match generateRIASECReport ⟨sr.R, sr.I, sr.A, sr.S, sr.E, sr.C⟩ resp with
    | (some rep, none) => some (sr, rep)
    | _ => none
  else none

end Riasec

namespace Riasec

lemma traitLE_score {x y : TraitEntry} (h : traitLE x y) : y.score ≤ x.score := by
  unfold traitLE at h
  rcases h with h | ⟨h, _⟩
  · exact h.le
  · exact h.ge

lemma rank_perm (s : Scores) : (rank s).Perm (scoreMap s) :=
  List.perm_insertionSort traitLE (scoreMap s)

lemma rank_sorted (s : Scores) : (rank s).Sorted traitLE :=
  List.sorted_insertionSort traitLE (scoreMap s)

lemma rank_length (s : Scores) : (rank s).length = 6 :=
  (rank_perm s).length_eq

lemma rank_codeKeys_nodup (s : Scores) :
    ((rank s).map fun e => codeKey e.code).Nodup := by
  have hperm : ((rank s).map fun e => codeKey e.code).Perm
      ((scoreMap s).map fun e => codeKey e.code) := (rank_perm s).map _
  have hsm : ((scoreMap s).map fun e => codeKey e.code) = [4, 3, 0, 5, 2, 1] := by
    simp [scoreMap, codeKey]
  refine hperm.nodup_iff.mpr ?_
  rw [hsm]
  decide

lemma rank_pairwise_lt (s : Scores) : (rank s).Pairwise traitLT := by
  have h1 : (rank s).Pairwise traitLE := rank_sorted s
  have h2 : (rank s).Pairwise fun a b => codeKey a.code ≠ codeKey b.code :=
    List.pairwise_map.mp (rank_codeKeys_nodup s)
  refine (h1.and h2).imp ?_
  rintro a b ⟨hle | ⟨heq, hk⟩, hne⟩
  · exact Or.inl hle
  · exact Or.inr ⟨heq, lt_of_le_of_ne hk hne⟩

lemma rankScore_five (s : Scores) : rankScore s 5 = minSix s := by
  have h5 : 5 < (rank s).length := by rw [rank_length]; omega
  have hget : (rank s).get? 5 = some ((rank s).get ⟨5, h5⟩) :=
    List.get?_eq_get h5
  set e5 := (rank s).get ⟨5, h5⟩ with he5
  have hlb : ∀ x ∈ rank s, e5.score ≤ x.score := by
    intro x hx
    obtain ⟨i, hi⟩ := List.mem_iff_get.mp hx
    rcases Nat.lt_or_ge i.val 5 with hlt | hge
    · have := List.pairwise_iff_get.mp (rank_sorted s) i ⟨5, h5⟩ hlt
      exact hi ▸ traitLE_score this
    · have hi6 : i.val < 6 := lt_of_lt_of_le i.isLt (rank_length s).le
      have h55 : i.val = 5 := by omega
      have hieq : i = (⟨5, h5⟩ : Fin (rank s).length) := by
        apply Fin.ext
        simp [h55]
      rw [← hi, hieq]
  have hmemArg : ∀ c l t q, (⟨c, l, t, q⟩ : TraitEntry) ∈ scoreMap s →
      e5.score ≤ q := by
    intro c l t q hm
    have : (⟨c, l, t, q⟩ : TraitEntry) ∈ rank s := (rank_perm s).mem_iff.mpr hm
    exact hlb _ this
  have hR : e5.score ≤ s.R :=
    hmemArg "R" "Realistic" "Realistic (Doers)" s.R (by simp [scoreMap])
  have hI : e5.score ≤ s.I :=
    hmemArg "I" "Investigative" "Investigative (Thinkers)" s.I
      (by simp [scoreMap])
  have hA : e5.score ≤ s.A :=
    hmemArg "A" "Artistic" "Artistic (Creators)" s.A (by simp [scoreMap])
  have hS : e5.score ≤ s.S :=
    hmemArg "S" "Social" "Social (Helpers)" s.S (by simp [scoreMap])
  have hE : e5.score ≤ s.E :=
    hmemArg "E" "Enterprising" "Enterprising (Persuaders)" s.E
      (by simp [scoreMap])
  have hC : e5.score ≤ s.C :=
    hmemArg "C" "Conventional" "Conventional (Organizers)" s.C
      (by simp [scoreMap])
  have hle : e5.score ≤ minSix s := by
    unfold minSix
    exact le_min (le_min (le_min (le_min (le_min hR hI) hA) hS) hE) hC
  have hmem5 : e5 ∈ scoreMap s :=
    (rank_perm s).mem_iff.mp (List.get_mem _ _ _)
  have hge : minSix s ≤ e5.score := by
    unfold minSix
    simp only [scoreMap, List.mem_cons, List.not_mem_nil, or_false] at hmem5
    rcases hmem5 with h | h | h | h | h | h <;> rw [h] <;>
      simp [min_le_iff, le_refl]
  have : rankScore s 5 = e5.score := by
    unfold rankScore
    rw [hget]
    rfl
  rw [this]
  exact le_antisymm hle hge

/-- Claim C1: the decision-risk classification is computed from the ranked
scores by the four branches in order (first match wins): both close gaps
give Moderate Risk / Developing; a dominant top trait gives Low Risk /
Highly Stable; a weak top score or a small spread between the top score
and the lowest of all six scores gives High Risk / Developing; otherwise
Moderate Risk / Moderately Stable. -/
theorem C1_decision_risk_branches (s : Scores) :
    decisionRisk s =
      claimDecisionRisk (rankScore s 0) (rankScore s 1) (rankScore s 2)
        (minSix s) := by
  unfold decisionRisk claimDecisionRisk
  rw [rankScore_five]

/-- Claim C6: the ranking is a permutation of the six `(code, score)`
entries, strictly sorted by descending score with ties broken by ascending
alphabetical code; this order is the unique such arrangement, and the
first three of it form `topTraits`. -/
theorem C6_ranking_order (s : Scores) :
    (rank s).Perm (scoreMap s) ∧
    (rank s).Pairwise traitLT ∧
    (∀ l : List TraitEntry, l.Perm (scoreMap s) → l.Pairwise traitLT →
      l = rank s) ∧
    (topTraits s).map (·.code) = ((rank s).take 3).map (·.code) := by
  refine ⟨rank_perm s, rank_pairwise_lt s, ?_, ?_⟩
  · intro l hp hs
    exact List.eq_of_perm_of_sorted (hp.trans (rank_perm s).symm) hs
      (rank_pairwise_lt s)
  · simp only [topTraits, List.map_map]
    rfl

/-- Witness for C6 at a fully tied input: the unique sorted order is the
alphabetical one, obtained by applying the uniqueness part of the claim
theorem at concrete data. -/
theorem C6_ranking_order_witness :
    [(⟨"A", "Artistic", "Artistic (Creators)", 40⟩ : TraitEntry),
     ⟨"C", "Conventional", "Conventional (Organizers)", 40⟩,
     ⟨"E", "Enterprising", "Enterprising (Persuaders)", 40⟩,
     ⟨"I", "Investigative", "Investigative (Thinkers)", 40⟩,
     ⟨"R", "Realistic", "Realistic (Doers)", 40⟩,
     ⟨"S", "Social", "Social (Helpers)", 40⟩] =
      rank ⟨40, 40, 40, 40, 40, 40⟩ :=
  (C6_ranking_order ⟨40, 40, 40, 40, 40, 40⟩).2.2.1 _ (by decide) (by decide)

end Riasec

namespace Riasec

lemma accMap_of_sections_empty {db : DB} {attemptId : ℕ}
    (h : (riasecSectionsOf db).isEmpty) : accMap db attemptId = AccMap.init := by
  unfold accMap effectiveRows joinRows
  rw [if_pos h]
  rfl

lemma accMap_of_rows_empty {db : DB} {attemptId : ℕ}
    (h : (joinRows db attemptId).isEmpty) :
    accMap db attemptId = AccMap.init := by
  unfold accMap effectiveRows
  rw [List.isEmpty_iff.mp h]
  rfl

lemma scoreOf_calc_eq {db : DB} {attemptId : ℕ} {code : String}
    (hcode : code ∈ riasecCodes)
    (h1 : ¬(riasecSectionsOf db).isEmpty)
    (h2 : ¬(joinRows db attemptId).isEmpty) :
    scoreOf (calculateRIASECScores db attemptId).1 code =
      finalScore ((accMap db attemptId).get code) := by
  simp only [riasecCodes, List.mem_cons, List.not_mem_nil, or_false] at hcode
  unfold calculateRIASECScores
  rw [if_neg h1, if_neg h2]
  rcases hcode with rfl | rfl | rfl | rfl | rfl | rfl <;>
    simp [scoreOf, AccMap.get]

lemma scoreOf_mkErr {code : String} {msg : String}
    (hcode : code ∈ riasecCodes) : scoreOf (mkErr msg) code = 0 := by
  simp only [riasecCodes, List.mem_cons, List.not_mem_nil, or_false] at hcode
  rcases hcode with rfl | rfl | rfl | rfl | rfl | rfl <;> simp [scoreOf, mkErr]

/-- Claim C2: a dimension with at least one contributing answer scores
`((sum/count − 1)/4) × 100` rounded to two decimals and clamped to
`[0,100]`; a dimension with no contributing answers scores 0. -/
theorem C2_dimension_score_formula (db : DB) (attemptId : ℕ) (code : String)
    (hcode : code ∈ riasecCodes) :
    (((accMap db attemptId).get code).count ≠ 0 →
      scoreOf (calculateRIASECScores db attemptId).1 code =
        clamp100 (round2 ((((accMap db attemptId).get code).total /
          ((((accMap db attemptId).get code).count : ℕ) : ℚ) - 1) / 4 * 100))) ∧
    (((accMap db attemptId).get code).count = 0 →
      scoreOf (calculateRIASECScores db attemptId).1 code = 0) := by
  by_cases h1 : (riasecSectionsOf db).isEmpty
  · rw [accMap_of_sections_empty h1]
    have hz : (AccMap.get AccMap.init code).count = 0 := by
      unfold AccMap.get AccMap.init
      split_ifs <;> rfl
    refine ⟨fun h => absurd hz h, fun _ => ?_⟩
    unfold calculateRIASECScores
    rw [if_pos h1]
    exact scoreOf_mkErr hcode
  · by_cases h2 : (joinRows db attemptId).isEmpty
    · rw [accMap_of_rows_empty h2]
      have hz : (AccMap.get AccMap.init code).count = 0 := by
        unfold AccMap.get AccMap.init
        split_ifs <;> rfl
      refine ⟨fun h => absurd hz h, fun _ => ?_⟩
      unfold calculateRIASECScores
      rw [if_neg h1, if_pos h2]
      exact scoreOf_mkErr hcode
    · rw [scoreOf_calc_eq hcode h1 h2]
      constructor
      · intro h
        unfold finalScore
        rw [if_neg h]
      · intro h
        unfold finalScore
        rw [if_pos h]

/-- A one-answer database: one RIASEC section (position 5), one Likert
question in it, one answer of value `D` (ordinal 4). -/
def dbOneAnswer : DB :=
  ⟨[⟨1, 5, "Sec R"⟩], [⟨1, 1, 1, some "R", "LIKERT_SCALE"⟩], [⟨1, 1, "D"⟩]⟩

/-- Witness for C2: on the one-answer database the accumulator for `R` has
one contribution and the formula gives exactly `((4−1)/4)×100 = 75`. -/
theorem C2_dimension_score_formula_witness :
    scoreOf (calculateRIASECScores dbOneAnswer 1).1 "R" =
      clamp100 (round2 ((((accMap dbOneAnswer 1).get "R").total /
        ((((accMap dbOneAnswer 1).get "R").count : ℕ) : ℚ) - 1) / 4 * 100)) ∧
    scoreOf (calculateRIASECScores dbOneAnswer 1).1 "R" = 75 :=
  ⟨(C2_dimension_score_formula dbOneAnswer 1 "R" (by decide)).1
     (by with_unfolding_all decide),
   by with_unfolding_all rfl⟩

/-- Test used by claim C4: are all six dimension sections present in the
catalog? -/
def allSixSectionsPresent (db : DB) : Bool :=
  [5, 6, 7, 8, 9, 10].all fun o => db.sections.any fun s => s.order_index == o

/-- Counterexample to C4 as stated: with only one of the six dimension
sections present (so "not all present") but answers available, scoring
proceeds and returns a non-zero score with a null error — the code only
fails when zero sections are found (`riasecSections.length === 0`). -/
theorem C4_partial_sections_counterexample :
    allSixSectionsPresent dbOneAnswer = false ∧
    (calculateRIASECScores dbOneAnswer 1).1.R = 75 ∧
    (calculateRIASECScores dbOneAnswer 1).1.error = none := by
  with_unfolding_all decide

/-- Claim C4 as amended: if none of the six dimension sections are found,
or the join yields zero answers, the result is all-zero scores with a
non-null error, the store is untouched, and (the model being a total
function) no exception crosses the boundary. -/
theorem C4_zero_data_error (db : DB) (attemptId : ℕ)
    (h : riasecSectionsOf db = [] ∨ joinRows db attemptId = []) :
    (calculateRIASECScores db attemptId).1.R = 0 ∧
    (calculateRIASECScores db attemptId).1.I = 0 ∧
    (calculateRIASECScores db attemptId).1.A = 0 ∧
    (calculateRIASECScores db attemptId).1.S = 0 ∧
    (calculateRIASECScores db attemptId).1.E = 0 ∧
    (calculateRIASECScores db attemptId).1.C = 0 ∧
    (calculateRIASECScores db attemptId).1.error ≠ none ∧
    (calculateRIASECScores db attemptId).2 = db := by
  by_cases h1 : (riasecSectionsOf db).isEmpty
  · unfold calculateRIASECScores
    rw [if_pos h1]
    simp [mkErr]
  · have h2 : (joinRows db attemptId).isEmpty := by
      rcases h with h | h
      · exact absurd (List.isEmpty_iff.mpr h) h1
      · exact List.isEmpty_iff.mpr h
    unfold calculateRIASECScores
    rw [if_neg h1, if_pos h2]
    simp [mkErr]

/-- Witness for C4 (amended) at the empty database. -/
theorem C4_zero_data_error_witness :
    (calculateRIASECScores ⟨[], [], []⟩ 1).1.R = 0 ∧
    (calculateRIASECScores ⟨[], [], []⟩ 1).1.I = 0 ∧
    (calculateRIASECScores ⟨[], [], []⟩ 1).1.A = 0 ∧
    (calculateRIASECScores ⟨[], [], []⟩ 1).1.S = 0 ∧
    (calculateRIASECScores ⟨[], [], []⟩ 1).1.E = 0 ∧
    (calculateRIASECScores ⟨[], [], []⟩ 1).1.C = 0 ∧
    (calculateRIASECScores ⟨[], [], []⟩ 1).1.error ≠ none ∧
    (calculateRIASECScores ⟨[], [], []⟩ 1).2 = ⟨[], [], []⟩ :=
  C4_zero_data_error ⟨[], [], []⟩ 1 (Or.inl rfl)

end Riasec

namespace Riasec

/-- Per-answer value extraction exactly as the spec words it (letter map
checked from `E` downwards so that the definition is not a syntactic copy
of `answerValue`): 5-point-ordinal answers map the trimmed upper-cased
text through the letter map with neutral default 3; free-choice answers
try the letter map, then `parseFloat`, defaulting to 0; other kinds give
0. -/
def specAnswerValue (questionType : String) (text : String) : ℚ :=
  let t := jsToUpper (jsTrim text)
  if questionType = "LIKERT_SCALE" then
    if t = "E" then 5
    else if t = "D" then 4
    else if t = "C" then 3
    else if t = "B" then 2
    else if t = "A" then 1
    else 3
  else if questionType = "MULTIPLE_CHOICE" then
    if t = "E" then 5
    else if t = "D" then 4
    else if t = "C" then 3
    else if t = "B" then 2
    else if t = "A" then 1
    else
      match jsParseFloat text with
      | some v => v
      | none => 0
  else 0

/-- Claim C8: the per-answer value extraction agrees with the spec's
description for every question kind and answer text, illustrated on
concrete samples (trimmed lower-case letter, unrecognised token, numeric
free-choice text, unparseable text, other question kind). -/
theorem C8_answer_value_extraction :
    (∀ questionType text, answerValue questionType text =
      specAnswerValue questionType text) ∧
    answerValue "LIKERT_SCALE" "  d " = 4 ∧
    answerValue "LIKERT_SCALE" "unknown" = 3 ∧
    answerValue "MULTIPLE_CHOICE" "b" = 2 ∧
    answerValue "MULTIPLE_CHOICE" " 3.5" = 7 / 2 ∧
    answerValue "MULTIPLE_CHOICE" "n/a" = 0 ∧
    answerValue "TEXT" "E" = 0 := by
  refine ⟨?_, by with_unfolding_all rfl, by with_unfolding_all rfl,
    by with_unfolding_all rfl, by with_unfolding_all rfl,
    by with_unfolding_all rfl, by with_unfolding_all rfl⟩
  intro questionType text
  unfold answerValue specAnswerValue likertMap
  by_cases h1 : questionType = "LIKERT_SCALE" <;>
    by_cases h2 : questionType = "MULTIPLE_CHOICE" <;>
      simp only [h1, h2, if_true, if_false, ite_true, ite_false] <;>
      try rfl
  all_goals {
    by_cases hA : jsToUpper (jsTrim text) = "A"
    · simp [hA]
    · by_cases hB : jsToUpper (jsTrim text) = "B"
      · simp [hB]
      · by_cases hC : jsToUpper (jsTrim text) = "C"
        · simp [hC]
        · by_cases hD : jsToUpper (jsTrim text) = "D"
          · simp [hD]
          · by_cases hE : jsToUpper (jsTrim text) = "E"
            · simp [hE]
            · simp [hA, hB, hC, hD, hE]
  }

/-- The scores of the spec's end-to-end scenario. -/
def exScores : Scores := ⟨85, 70, 10, 5, 5, 5⟩

/-- The same scores as a successful scoring result. -/
def exScoresResult : ScoresResult := ⟨85, 70, 10, 5, 5, 5, none⟩

/-- A pathway list a misbehaving generator might volunteer. -/
def junkPathways : List Pathway :=
  [⟨"Fake Degree", "X-Y-Z", "Fake Role", "Fake Persona", "Fake Focus",
    "High Confidence", "HIGH"⟩]

/-- Claim C3 is violated by the code: when the external narrative
generator returns unparseable output, `generateRIASECReport` returns a
null report (with only an error), so none of the deterministic sections
reach the caller, and the route leaves `riasec_report` null entirely.
Only the second half of the claim holds: on success the deterministic
career-pathway list always overwrites whatever the generator produced. -/
theorem C3_narrative_failure_drops_deterministic_sections :
    (generateRIASECReport exScores GenResponse.unparsableText).1 = none ∧
    (generateRIASECReport exScores GenResponse.unparsableText).2 ≠ none ∧
    routeRiasecReport exScoresResult GenResponse.unparsableText = none ∧
    (generateRIASECReport exScores
        (GenResponse.parsed true true (some junkPathways))).1 =
      some ⟨true, true, some (careerPathways exScores)⟩ := by
  refine ⟨rfl, by simp [generateRIASECReport], ?_, rfl⟩
  with_unfolding_all decide

end Riasec

namespace Riasec

lemma rank_codes_perm (s : Scores) :
    ((rank s).map (·.code)).Perm riasecCodes := by
  have h : (scoreMap s).map (·.code) = riasecCodes := rfl
  exact h ▸ (rank_perm s).map (·.code)

lemma rank_codes_nodup (s : Scores) : ((rank s).map (·.code)).Nodup :=
  (rank_codes_perm s).nodup_iff.mpr (by decide)

lemma rankCode_eq_get (s : Scores) (i : ℕ) (h : i < (rank s).length) :
    rankCode s i = ((rank s).get ⟨i, h⟩).code := by
  unfold rankCode
  rw [List.get?_eq_get h]
  rfl

lemma rankCode_mem (s : Scores) (i : ℕ) (h : i < (rank s).length) :
    rankCode s i ∈ riasecCodes := by
  rw [rankCode_eq_get s i h]
  exact (rank_codes_perm s).subset
    (List.mem_map_of_mem (fun e : TraitEntry => e.code) (List.get_mem _ _ _))

lemma rankCode_ne (s : Scores) (i j : ℕ) (hi : i < (rank s).length)
    (hj : j < (rank s).length) (hij : i ≠ j) :
    rankCode s i ≠ rankCode s j := by
  rw [rankCode_eq_get s i hi, rankCode_eq_get s j hj]
  intro heq
  have hmap : ((rank s).map (·.code)).get ⟨i, by simpa using hi⟩ =
      ((rank s).map (·.code)).get ⟨j, by simpa using hj⟩ := by
    simpa [List.getElem_map] using heq
  have := (List.Nodup.get_inj_iff (rank_codes_nodup s)).mp hmap
  exact hij (by simpa using this)

end Riasec

namespace Riasec

set_option maxHeartbeats 1000000 in
lemma pathway_tables_ok :
    ∀ a ∈ riasecCodes, ∀ b ∈ riasecCodes, ∀ c ∈ riasecCodes,
      a ≠ b → a ≠ c → b ≠ c →
      ((degreesFor a b c).Nodup ∧ (degreesFor a b c).length = 10 ∧
       (∀ d ∈ degreesFor a b c, ¬d = "") ∧
       (allRoleDataFor a b c).length = 5) := by decide

lemma pickDegree_eq_get (ds used : List String) (idx : ℕ)
    (hnd : ds.Nodup) (hne : ∀ d ∈ ds, ¬d = "") (hidx : idx < ds.length)
    (hsub : ∀ d ∈ used, d ∈ ds.take idx) :
    pickDegree ds used idx = ds.get ⟨idx, hidx⟩ := by
  have hd0 : ds.getD idx "" = ds.get ⟨idx, hidx⟩ := by
    rw [List.getD_eq_get?, List.get?_eq_get hidx]
    rfl
  have hne0 : ¬ds.get ⟨idx, hidx⟩ = "" := hne _ (List.get_mem _ _ _)
  have hnotmem : ds.get ⟨idx, hidx⟩ ∉ ds.take idx := by
    intro hmem
    obtain ⟨⟨j, hj⟩, hget⟩ := List.mem_iff_get.mp hmem
    have hjlt : j < idx := by
      have := hj
      rw [List.length_take] at this
      omega
    have hjds : j < ds.length := by omega
    have hgets : ds.get ⟨j, hjds⟩ = ds.get ⟨idx, hidx⟩ := by
      rw [List.get_take ds hjds hjlt]
      exact hget
    have := (hnd.get_inj_iff).mp hgets
    have : j = idx := by simpa using this
    omega
  have hcond : ¬(ds.get ⟨idx, hidx⟩ = "" ∨
      used.contains (ds.get ⟨idx, hidx⟩) = true) := by
    rintro (h | h)
    · exact hne0 h
    · exact hnotmem (hsub _ (List.elem_iff.mp h))
  simp only [pickDegree, strOr, hd0]
  rw [if_neg hne0, if_neg hcond, if_neg hne0]

lemma buildEntries_length (t0 t1 t2 : String) (tops : ℚ × ℚ × ℚ)
    (sc : Scores) (ds : List String) :
    ∀ (items : List RoleItem) (idx : ℕ) (used : List String),
      (buildEntries t0 t1 t2 tops sc ds items idx used).length =
        items.length := by
  intro items
  induction items with
  | nil => intro idx used; rfl
  | cons item items ih =>
      intro idx used
      simp only [buildEntries, List.length_cons, ih]

lemma buildEntries_degrees (t0 t1 t2 : String) (tops : ℚ × ℚ × ℚ)
    (sc : Scores) (ds : List String) (hnd : ds.Nodup)
    (hne : ∀ d ∈ ds, ¬d = "") :
    ∀ (items : List RoleItem) (idx : ℕ) (used : List String),
      idx + items.length ≤ ds.length →
      (∀ d ∈ used, d ∈ ds.take idx) →
      (buildEntries t0 t1 t2 tops sc ds items idx used).map (·.degree) =
        (ds.drop idx).take items.length := by
  intro items
  induction items with
  | nil =>
      intro idx used _ _
      simp [buildEntries]
  | cons item items ih =>
      intro idx used hlen hsub
      have hidx : idx < ds.length := by
        simp only [List.length_cons] at hlen
        omega
      have hpick := pickDegree_eq_get ds used idx hnd hne hidx hsub
      have hsub2 : ∀ d ∈ pickDegree ds used idx :: used,
          d ∈ ds.take (idx + 1) := by
        intro d hd
        rcases List.mem_cons.mp hd with rfl | hd
        · rw [hpick, List.take_succ]
          refine List.mem_append.mpr (Or.inr ?_)
          rw [List.getElem?_eq_getElem hidx]
          simp [List.get_eq_getElem]
        · rw [List.take_succ]
          exact List.mem_append_left _ (hsub _ hd)
      have hlen2 : idx + 1 + items.length ≤ ds.length := by
        simp only [List.length_cons] at hlen
        omega
      have hIH := ih (idx + 1) (pickDegree ds used idx :: used) hlen2 hsub2
      simp only [buildEntries, List.map_cons, List.length_cons]
      rw [hIH, List.drop_eq_get_cons hidx, List.take_succ_cons]
      simp only [mkPathway]
      rw [hpick]

lemma mem_buildEntries {t0 t1 t2 : String} {tops : ℚ × ℚ × ℚ}
    {sc : Scores} {ds : List String} {e : Pathway} :
    ∀ {items : List RoleItem} {idx : ℕ} {used : List String},
      e ∈ buildEntries t0 t1 t2 tops sc ds items idx used →
      ∃ item ∈ items, ∃ d, e = mkPathway item d
        (calculateConfidence item.riasecMix t0 t1 t2 tops.1 tops.2.1
          tops.2.2 sc) := by
  intro items
  induction items with
  | nil => intro idx used h; simp [buildEntries] at h
  | cons item items ih =>
      intro idx used h
      simp only [buildEntries, List.mem_cons] at h
      rcases h with rfl | h
      · exact ⟨item, List.mem_cons_self _ _, _, rfl⟩
      · obtain ⟨it, hit, d, rfl⟩ := ih h
        exact ⟨it, List.mem_cons_of_mem _ hit, d, rfl⟩

lemma confidence_level_cases (mix t0 t1 t2 : String) (a b c : ℚ)
    (sc : Scores) :
    (calculateConfidence mix t0 t1 t2 a b c sc).1 = "HIGH" ∨
    (calculateConfidence mix t0 t1 t2 a b c sc).1 = "MODERATE" ∨
    (calculateConfidence mix t0 t1 t2 a b c sc).1 = "LOW" := by
  simp only [calculateConfidence]
  split_ifs <;> simp

lemma mem_dedupByKey {α : Type} {key : α → String} :
    ∀ {l : List α} {seen : List String} {x : α},
      x ∈ dedupByKey key l seen → x ∈ l := by
  intro l
  induction l with
  | nil => intro seen x h; simp [dedupByKey] at h
  | cons y l ih =>
      intro seen x h
      simp only [dedupByKey] at h
      split at h
      · exact List.mem_cons_of_mem _ (ih h)
      · rcases List.mem_cons.mp h with rfl | h
        · exact List.mem_cons_self _ _
        · exact List.mem_cons_of_mem _ (ih h)

lemma mem_allRoleDataFor_mix {t0 t1 t2 : String} :
    ∀ item ∈ allRoleDataFor t0 t1 t2,
      item.riasecMix = mixString t0 t1 t2 := by
  intro item h
  simp only [allRoleDataFor] at h
  have h2 := List.take_subset _ _ h
  rcases List.mem_append.mp h2 with h3 | h3
  · simp only [roleDataFor] at h3
    have h4 := mem_dedupByKey h3
    simp only [List.mem_cons, List.not_mem_nil, or_false] at h4
    rcases h4 with rfl | rfl | rfl <;> rfl
  · obtain ⟨r, _, rfl⟩ := List.mem_map.mp h3
    rfl

end Riasec

namespace Riasec

lemma rankCodes_facts (s : Scores) :
    rankCode s 0 ∈ riasecCodes ∧ rankCode s 1 ∈ riasecCodes ∧
    rankCode s 2 ∈ riasecCodes ∧ rankCode s 0 ≠ rankCode s 1 ∧
    rankCode s 0 ≠ rankCode s 2 ∧ rankCode s 1 ≠ rankCode s 2 := by
  have h6 : (rank s).length = 6 := rank_length s
  refine ⟨rankCode_mem s 0 (by omega), rankCode_mem s 1 (by omega),
    rankCode_mem s 2 (by omega), rankCode_ne s 0 1 (by omega) (by omega)
      (by omega), rankCode_ne s 0 2 (by omega) (by omega) (by omega),
    rankCode_ne s 1 2 (by omega) (by omega) (by omega)⟩

/-- Claim C7: for every six-score input the derived career-pathway list
has between 1 and 5 entries, its degree values are pairwise distinct, and
every entry's confidence level is HIGH, MODERATE or LOW. -/
theorem C7_career_pathway_shape (s : Scores) :
    1 ≤ (careerPathways s).length ∧ (careerPathways s).length ≤ 5 ∧
    ((careerPathways s).map (·.degree)).Nodup ∧
    (∀ e ∈ careerPathways s,
      e.confidenceLevel = "HIGH" ∨ e.confidenceLevel = "MODERATE" ∨
        e.confidenceLevel = "LOW") := by
  obtain ⟨hm0, hm1, hm2, h01, h02, h12⟩ := rankCodes_facts s
  obtain ⟨hnd, hlen10, hne, hlen5⟩ :=
    pathway_tables_ok _ hm0 _ hm1 _ hm2 h01 h02 h12
  have hlen : (careerPathways s).length = 5 := by
    unfold careerPathways calculateCareerPathways
    rw [buildEntries_length, hlen5]
  have hdeg : (careerPathways s).map (·.degree) =
      (degreesFor (rankCode s 0) (rankCode s 1) (rankCode s 2)).take 5 := by
    unfold careerPathways calculateCareerPathways
    rw [buildEntries_degrees _ _ _ _ _ _ hnd hne _ 0 []
      (by rw [hlen5, hlen10]; omega) (by intro d hd; simp at hd)]
    rw [hlen5, List.drop_zero]
  refine ⟨by omega, by omega, ?_, ?_⟩
  · rw [hdeg]
    exact (List.take_sublist _ _).nodup hnd
  · intro e he
    obtain ⟨item, _, d, rfl⟩ := mem_buildEntries he
    have hcase := confidence_level_cases item.riasecMix (rankCode s 0)
      (rankCode s 1) (rankCode s 2) (rankScore s 0) (rankScore s 1)
      (rankScore s 2) s
    rcases hcase with h | h | h <;>
      simp [mkPathway, strOr, h]

/-- The all-empty pathway record, used as a lookup default. -/
def pwDefault : Pathway := ⟨"", "", "", "", "", "", ""⟩

/-- Witness for C7: the first pathway entry of the end-to-end scenario
has one of the three confidence levels. -/
theorem C7_career_pathway_shape_witness :
    ((careerPathways exScores).getD 0 pwDefault).confidenceLevel = "HIGH" ∨
    ((careerPathways exScores).getD 0 pwDefault).confidenceLevel =
      "MODERATE" ∨
    ((careerPathways exScores).getD 0 pwDefault).confidenceLevel = "LOW" :=
  (C7_career_pathway_shape exScores).2.2.2 _ (by with_unfolding_all decide)

/-- Claim C9: every pathway entry of one report carries the same
`riasecMix` string (the top-3 ranked codes joined by hyphens), and
consequently all entries share one confidence label and level. -/
theorem C9_uniform_mix_and_confidence (s : Scores) :
    (∀ e ∈ careerPathways s,
      e.riasecMix =
        mixString (rankCode s 0) (rankCode s 1) (rankCode s 2)) ∧
    (∀ e ∈ careerPathways s, ∀ f ∈ careerPathways s,
      e.confidence = f.confidence ∧
        e.confidenceLevel = f.confidenceLevel) := by
  constructor
  · intro e he
    obtain ⟨item, hitem, d, rfl⟩ := mem_buildEntries he
    have hmix := mem_allRoleDataFor_mix _ hitem
    simp [mkPathway, hmix]
  · intro e he f hf
    obtain ⟨ie, hie, de, rfl⟩ := mem_buildEntries he
    obtain ⟨jf, hjf, df, rfl⟩ := mem_buildEntries hf
    have h1 := mem_allRoleDataFor_mix _ hie
    have h2 := mem_allRoleDataFor_mix _ hjf
    constructor <;> simp [mkPathway, h1, h2]

/-- Witness for C9: the first and second entries of the end-to-end
scenario share mix string and confidence. -/
theorem C9_uniform_mix_and_confidence_witness :
    ((careerPathways exScores).getD 0 pwDefault).riasecMix =
      mixString (rankCode exScores 0) (rankCode exScores 1)
        (rankCode exScores 2) ∧
    ((careerPathways exScores).getD 0 pwDefault).confidence =
      ((careerPathways exScores).getD 1 pwDefault).confidence :=
  ⟨(C9_uniform_mix_and_confidence exScores).1 _
     (by with_unfolding_all decide),
   ((C9_uniform_mix_and_confidence exScores).2 _
     (by with_unfolding_all decide) _ (by with_unfolding_all decide)).1⟩

end Riasec

namespace Riasec

/-- Category of a question after the updates have been applied in order:
the last matching update wins. -/
def applyCat (us : List (ℕ × String)) (i : ℕ) (c0 : Option String) :
    Option String :=
  us.foldl (fun c u => if i == u.1 then some u.2 else c) c0

/-- Pointwise effect of `applyUpdates` on one question. -/
def reCat (us : List (ℕ × String)) (q : Question) : Question :=
  { q with category := applyCat us q.id q.category }

lemma applyUpdates_eq_map :
    ∀ (us : List (ℕ × String)) (qs : List Question),
      applyUpdates qs us = qs.map (reCat us) := by
  intro us
  induction us with
  | nil =>
      intro qs
      show qs = qs.map (reCat [])
      exact (List.map_id qs).symm
  | cons u us ih =>
      intro qs
      show applyUpdates (applyUpdate qs u) us = _
      rw [ih]
      unfold applyUpdate
      rw [List.map_map]
      refine List.map_congr_left ?_
      intro q _
      show reCat us (if q.id == u.1 then { q with category := some u.2 }
        else q) = reCat (u :: us) q
      by_cases h : q.id = u.1
      · simp [reCat, applyCat, h]
      · simp [reCat, applyCat, h]

lemma applyCat_no_match :
    ∀ {us : List (ℕ × String)} {i : ℕ} {c0 : Option String},
      (∀ u ∈ us, u.1 ≠ i) → applyCat us i c0 = c0 := by
  intro us
  induction us with
  | nil => intro i c0 _; rfl
  | cons u us ih =>
      intro i c0 h
      show applyCat us i (if i == u.1 then some u.2 else c0) = c0
      rw [if_neg (by simpa using (h u (List.mem_cons_self _ _)).symm)]
      exact ih fun v hv => h v (List.mem_cons_of_mem _ hv)

lemma applyCat_valid :
    ∀ {us : List (ℕ × String)} {i : ℕ} {c0 : Option String},
      (∃ u ∈ us, u.1 = i) →
      (∀ u ∈ us, isValidCategory (some u.2) = true) →
      isValidCategory (applyCat us i c0) = true := by
  intro us
  induction us with
  | nil => rintro i c0 ⟨u, hu, _⟩ _; simp at hu
  | cons u us ih =>
      rintro i c0 ⟨v, hv, hvi⟩ hval
      show isValidCategory (applyCat us i
        (if i == u.1 then some u.2 else c0)) = true
      by_cases hrest : ∃ w ∈ us, w.1 = i
      · exact ih hrest fun w hw => hval w (List.mem_cons_of_mem _ hw)
      · have hv1 : v = u := by
          rcases List.mem_cons.mp hv with h | h
          · exact h
          · exact absurd ⟨v, h, hvi⟩ hrest
        subst hv1
        rw [if_pos (by simpa using hvi.symm)]
        rw [applyCat_no_match fun w hw hwi => hrest ⟨w, hw, hwi⟩]
        exact hval v (List.mem_cons_self _ _)

lemma applyCat_last_of_all_eq :
    ∀ {us : List (ℕ × String)} {i : ℕ} {c : String} {c0 : Option String},
      (i, c) ∈ us → (∀ u ∈ us, u.1 = i → u.2 = c) →
      applyCat us i c0 = some c := by
  intro us
  induction us with
  | nil => intro i c c0 h _; simp at h
  | cons u us ih =>
      intro i c c0 hm hall
      show applyCat us i (if i == u.1 then some u.2 else c0) = some c
      by_cases hrest : ∃ w ∈ us, w.1 = i
      · obtain ⟨w, hw, hwi⟩ := hrest
        have : w.2 = c := hall w (List.mem_cons_of_mem _ hw) hwi
        have hwc : (i, c) ∈ us := by
          have : w = (i, c) := Prod.ext hwi this
          exact this ▸ hw
        exact ih hwc fun v hv => hall v (List.mem_cons_of_mem _ hv)
      · have hu : u = (i, c) := by
          rcases List.mem_cons.mp hm with h | h
          · exact h.symm
          · exact absurd ⟨(i, c), h, rfl⟩ hrest
        subst hu
        rw [if_pos (by simp)]
        exact applyCat_no_match fun w hw hwi => hrest ⟨w, hw, hwi⟩

lemma orderToRIASEC_valid {o : ℕ} {c : String}
    (h : orderToRIASEC o = some c) : isValidCategory (some c) = true := by
  unfold orderToRIASEC at h
  split_ifs at h <;> simp_all <;> subst h <;> decide

lemma find?_of_nodup_ids :
    ∀ {qs : List Question}, (qs.map (·.id)).Nodup → ∀ {q : Question},
      q ∈ qs → qs.find? (fun x => x.id == q.id) = some q := by
  intro qs
  induction qs with
  | nil => intro _ q h; simp at h
  | cons h t ih =>
      intro hnd q hq
      have hnd2 : (t.map (·.id)).Nodup := (List.nodup_cons.mp hnd).2
      have hnotin : h.id ∉ t.map (·.id) := (List.nodup_cons.mp hnd).1
      rcases List.mem_cons.mp hq with rfl | hq
      · simp [List.find?]
      · have hne : (h.id == q.id) = false := by
          simp only [beq_eq_false_iff_ne, ne_eq]
          intro heq
          exact hnotin (heq ▸ List.mem_map_of_mem (·.id) hq)
        simp only [List.find?, hne]
        exact ih hnd2 hq

lemma find?_map_reCat (us : List (ℕ × String)) (i : ℕ) :
    ∀ qs : List Question,
      (qs.map (reCat us)).find? (fun x => x.id == i) =
        (qs.find? (fun x => x.id == i)).map (reCat us) := by
  intro qs
  induction qs with
  | nil => rfl
  | cons h t ih =>
      show List.find? _ (reCat us h :: t.map (reCat us)) = _
      by_cases hh : (h.id == i) = true
      · have : ((reCat us h).id == i) = true := hh
        simp [List.find?, this, hh]
      · have : ((reCat us h).id == i) = false := by
          simpa using hh
        simp only [List.find?, this, hh, Bool.false_eq_true]
        exact ih

end Riasec

namespace Riasec

lemma mem_joinedAnswers {db : DB} {attemptId : ℕ} {ids : List ℕ}
    {r : JoinedAnswer} (h : r ∈ joinedAnswers db attemptId ids) :
    r.ans ∈ db.answers ∧ r.q ∈ db.questions ∧ r.sec ∈ db.sections ∧
    r.sec.id = r.q.section_id := by
  unfold joinedAnswers at h
  rw [List.mem_flatMap] at h
  obtain ⟨a, ha, hr⟩ := h
  split at hr
  · rw [List.mem_flatMap] at hr
    obtain ⟨q, hq, hr2⟩ := hr
    rw [List.mem_map] at hr2
    obtain ⟨s, hs, heq⟩ := hr2
    obtain ⟨hq1, _⟩ := List.mem_filter.mp hq
    obtain ⟨hs1, hs2⟩ := List.mem_filter.mp hs
    subst heq
    refine ⟨ha, hq1, hs1, ?_⟩
    simpa using hs2
  · simp at hr

lemma mem_joinRows {db : DB} {attemptId : ℕ} {r : JoinedAnswer}
    (h : r ∈ joinRows db attemptId) :
    r.ans ∈ db.answers ∧ r.q ∈ db.questions ∧ r.sec ∈ db.sections ∧
    r.sec.id = r.q.section_id := by
  unfold joinRows at h
  split at h
  · simp at h
  · exact mem_joinedAnswers h

lemma joinedAnswers_map (db : DB) (attemptId : ℕ) (ids : List ℕ)
    (us : List (ℕ × String)) :
    joinedAnswers ⟨db.sections, db.questions.map (reCat us), db.answers⟩
        attemptId ids =
      (joinedAnswers db attemptId ids).map
        fun r => ⟨r.ans, reCat us r.q, r.sec⟩ := by
  unfold joinedAnswers
  rw [List.map_flatMap]
  refine congrArg db.answers.flatMap (funext fun a => ?_)
  by_cases ha : a.test_attempt_id = attemptId
  · rw [if_pos ha, if_pos ha]
    show ((db.questions.map (reCat us)).filter _).flatMap _ = _
    rw [List.filter_map, List.flatMap_map, List.map_flatMap]
    refine congrArg _ (funext fun q => ?_)
    rw [List.map_map]
    rfl
  · rw [if_neg ha, if_neg ha]
    rfl

lemma mem_categoryUpdates {rows : List JoinedAnswer} {u : ℕ × String}
    (h : u ∈ categoryUpdates rows) :
    ∃ r ∈ rows, orderToRIASEC r.sec.order_index = some u.2 ∧
      isValidCategory r.q.category = false ∧ u.1 = r.q.id := by
  unfold categoryUpdates at h
  rw [List.mem_filterMap] at h
  obtain ⟨r, hr, hfr⟩ := h
  cases horder : orderToRIASEC r.sec.order_index with
  | none => rw [horder] at hfr; simp at hfr
  | some code =>
      rw [horder] at hfr
      have hfr2 : (if isValidCategory r.q.category = true then none
          else some (r.q.id, code)) = some u := hfr
      by_cases hval : isValidCategory r.q.category = true
      · rw [if_pos hval] at hfr2
        simp at hfr2
      · rw [if_neg hval] at hfr2
        obtain rfl := Option.some_injective _ hfr2
        exact ⟨r, hr, horder, by simpa using hval, rfl⟩

lemma mem_categoryUpdates_of {rows : List JoinedAnswer} {r : JoinedAnswer}
    {c : String} (hr : r ∈ rows)
    (horder : orderToRIASEC r.sec.order_index = some c)
    (hval : isValidCategory r.q.category = false) :
    (r.q.id, c) ∈ categoryUpdates rows := by
  unfold categoryUpdates
  rw [List.mem_filterMap]
  refine ⟨r, hr, ?_⟩
  rw [horder]
  show (if isValidCategory r.q.category = true then none
    else some (r.q.id, c)) = some (r.q.id, c)
  rw [if_neg (by simp [hval])]

lemma categoryUpdates_valid {rows : List JoinedAnswer} :
    ∀ u ∈ categoryUpdates rows, isValidCategory (some u.2) = true := by
  intro u hu
  obtain ⟨r, _, horder, _, _⟩ := mem_categoryUpdates hu
  exact orderToRIASEC_valid horder

lemma categoryUpdates_after {db : DB} {attemptId : ℕ}
    (hq : (db.questions.map (·.id)).Nodup) :
    categoryUpdates ((joinRows db attemptId).map
      fun r => ⟨r.ans, reCat (backfillUpdates db attemptId) r.q, r.sec⟩) =
      [] := by
  unfold categoryUpdates
  rw [List.filterMap_map, List.filterMap_eq_nil]
  intro r hr
  show (match orderToRIASEC r.sec.order_index with
    | none => none
    | some code =>
        if isValidCategory (applyCat (backfillUpdates db attemptId)
            r.q.id r.q.category) then none
        else some (r.q.id, code)) = none
  cases horder : orderToRIASEC r.sec.order_index with
  | none => rfl
  | some code =>
      have hvalid : isValidCategory (applyCat
          (backfillUpdates db attemptId) r.q.id r.q.category) = true := by
        by_cases hval : isValidCategory r.q.category = true
        · have hno : ∀ u ∈ backfillUpdates db attemptId, u.1 ≠ r.q.id := by
            intro u hu hui
            obtain ⟨r2, hr2, _, hval2, hui2⟩ := mem_categoryUpdates hu
            have hq2 : r2.q = r.q :=
              List.inj_on_of_nodup_map hq (mem_joinRows hr2).2.1
                (mem_joinRows hr).2.1 (hui2 ▸ hui)
            rw [hq2] at hval2
            simp [hval] at hval2
          rw [applyCat_no_match hno]
          exact hval
        · have hval2 : isValidCategory r.q.category = false := by
            simpa using hval
          have hmem : (r.q.id, code) ∈ backfillUpdates db attemptId :=
            mem_categoryUpdates_of hr horder hval2
          exact applyCat_valid ⟨(r.q.id, code), hmem, rfl⟩
            categoryUpdates_valid
      rw [hvalid]
      rfl

end Riasec

namespace Riasec

lemma joinRows_map (db : DB) (attemptId : ℕ) (us : List (ℕ × String)) :
    joinRows ⟨db.sections, db.questions.map (reCat us), db.answers⟩
        attemptId =
      (joinRows db attemptId).map fun r => ⟨r.ans, reCat us r.q, r.sec⟩ := by
  unfold joinRows
  have hsec : riasecSectionsOf
      ⟨db.sections, db.questions.map (reCat us), db.answers⟩ =
      riasecSectionsOf db := rfl
  rw [hsec]
  by_cases h : (riasecSectionsOf db).isEmpty
  · rw [if_pos h, if_pos h]
    rfl
  · rw [if_neg h, if_neg h]
    exact joinedAnswers_map db attemptId _ us

lemma calc_snd_main {db : DB} {attemptId : ℕ}
    (h1 : ¬(riasecSectionsOf db).isEmpty)
    (h2 : ¬(joinRows db attemptId).isEmpty) :
    (calculateRIASECScores db attemptId).2 =
      ⟨db.sections,
        db.questions.map (reCat (backfillUpdates db attemptId)),
        db.answers⟩ := by
  unfold calculateRIASECScores
  rw [if_neg h1, if_neg h2]
  show ({ db with questions := questionsAfter db attemptId } : DB) = _
  rw [show questionsAfter db attemptId =
    db.questions.map (reCat (backfillUpdates db attemptId)) from
    applyUpdates_eq_map _ _]

/-- Claim C5: the self-healing pass assigns, to every answered question of
a dimension section lacking a valid category, the code implied by its
section, and the whole backfill-then-score computation is idempotent:
running it again on the updated store returns the same scores and leaves
the question store (in particular every question category) unchanged. -/
theorem C5_backfill_idempotent (db : DB) (attemptId : ℕ)
    (hq : (db.questions.map (·.id)).Nodup)
    (hs : (db.sections.map (·.id)).Nodup) :
    (∀ r ∈ joinRows db attemptId, ∀ c,
      orderToRIASEC r.sec.order_index = some c →
      isValidCategory r.q.category = false →
      ∀ q2 ∈ (calculateRIASECScores db attemptId).2.questions,
        q2.id = r.q.id → q2.category = some c) ∧
    calculateRIASECScores (calculateRIASECScores db attemptId).2 attemptId =
      calculateRIASECScores db attemptId := by
  constructor
  · intro r hr c horder hval q2 hq2 hid
    by_cases h1 : (riasecSectionsOf db).isEmpty
    · exfalso
      unfold joinRows at hr
      rw [if_pos h1] at hr
      simp at hr
    by_cases h2 : (joinRows db attemptId).isEmpty
    · exfalso
      rw [List.isEmpty_iff.mp h2] at hr
      simp at hr
    rw [calc_snd_main h1 h2] at hq2
    obtain ⟨q0, hq0, rfl⟩ := List.mem_map.mp hq2
    have hall : ∀ u ∈ backfillUpdates db attemptId,
        u.1 = r.q.id → u.2 = c := by
      intro u hu hui
      obtain ⟨r2, hr2, horder2, _, hui2⟩ := mem_categoryUpdates hu
      have hqq : r2.q = r.q :=
        List.inj_on_of_nodup_map hq (mem_joinRows hr2).2.1
          (mem_joinRows hr).2.1 (hui2 ▸ hui)
      have hsecid : r2.sec.id = r.sec.id := by
        rw [(mem_joinRows hr2).2.2.2, (mem_joinRows hr).2.2.2, hqq]
      have hss : r2.sec = r.sec :=
        List.inj_on_of_nodup_map hs (mem_joinRows hr2).2.2.1
          (mem_joinRows hr).2.2.1 hsecid
      rw [hss, horder] at horder2
      exact (Option.some_injective _ horder2.symm)
    have hmem : (r.q.id, c) ∈ backfillUpdates db attemptId :=
      mem_categoryUpdates_of hr horder hval
    have hid0 : q0.id = r.q.id := hid
    show applyCat (backfillUpdates db attemptId) q0.id q0.category = some c
    rw [hid0]
    exact applyCat_last_of_all_eq hmem hall
  · by_cases h1 : (riasecSectionsOf db).isEmpty
    · have hdb : (calculateRIASECScores db attemptId).2 = db := by
        unfold calculateRIASECScores
        rw [if_pos h1]
      rw [hdb]
    by_cases h2 : (joinRows db attemptId).isEmpty
    · have hdb : (calculateRIASECScores db attemptId).2 = db := by
        unfold calculateRIASECScores
        rw [if_neg h1, if_pos h2]
      rw [hdb]
    rw [calc_snd_main h1 h2]
    have hrows1 : joinRows
        ⟨db.sections,
          db.questions.map (reCat (backfillUpdates db attemptId)),
          db.answers⟩ attemptId =
        (joinRows db attemptId).map
          (fun r => ⟨r.ans, reCat (backfillUpdates db attemptId) r.q,
            r.sec⟩) := joinRows_map db attemptId _
    have h1b : ¬(riasecSectionsOf
        ⟨db.sections,
          db.questions.map (reCat (backfillUpdates db attemptId)),
          db.answers⟩).isEmpty := h1
    have h2b : ¬(joinRows
        ⟨db.sections,
          db.questions.map (reCat (backfillUpdates db attemptId)),
          db.answers⟩ attemptId).isEmpty := by
      rw [hrows1]
      intro hemp
      rw [List.isEmpty_iff] at hemp
      exact h2 (List.isEmpty_iff.mpr (List.map_eq_nil.mp hemp))
    have hupd2 : backfillUpdates
        ⟨db.sections,
          db.questions.map (reCat (backfillUpdates db attemptId)),
          db.answers⟩ attemptId = [] := by
      show categoryUpdates _ = []
      rw [hrows1]
      exact categoryUpdates_after hq
    have heff : effectiveRows
        ⟨db.sections,
          db.questions.map (reCat (backfillUpdates db attemptId)),
          db.answers⟩ attemptId = effectiveRows db attemptId := by
      unfold effectiveRows
      rw [hupd2, hrows1, List.map_map]
      refine (List.map_congr_left ?_).symm
      intro r hrmem
      by_cases husE : (backfillUpdates db attemptId).isEmpty
      · rw [if_pos husE]
        have : backfillUpdates db attemptId = [] := List.isEmpty_iff.mp husE
        rw [this]
        rfl
      · rw [if_neg husE]
        rw [show questionsAfter db attemptId =
          db.questions.map (reCat (backfillUpdates db attemptId)) from
          applyUpdates_eq_map _ _]
        rw [find?_map_reCat]
        rw [find?_of_nodup_ids hq (mem_joinRows hrmem).2.1]
        rfl
    have hacc : accMap
        ⟨db.sections,
          db.questions.map (reCat (backfillUpdates db attemptId)),
          db.answers⟩ attemptId = accMap db attemptId := by
      unfold accMap
      rw [heff]
    unfold calculateRIASECScores
    rw [if_neg h1b, if_neg h2b, if_neg h1, if_neg h2]
    rw [hacc]
    refine Prod.ext rfl ?_
    show ({ (⟨db.sections,
        db.questions.map (reCat (backfillUpdates db attemptId)),
        db.answers⟩ : DB) with
      questions := questionsAfter
        ⟨db.sections,
          db.questions.map (reCat (backfillUpdates db attemptId)),
          db.answers⟩ attemptId } : DB) = _
    rw [show questionsAfter
        ⟨db.sections,
          db.questions.map (reCat (backfillUpdates db attemptId)),
          db.answers⟩ attemptId =
        db.questions.map (reCat (backfillUpdates db attemptId)) by
      unfold questionsAfter
      rw [hupd2]
      rfl]
    show (⟨db.sections,
        db.questions.map (reCat (backfillUpdates db attemptId)),
        db.answers⟩ : DB) =
      ({ db with questions := questionsAfter db attemptId } : DB)
    rw [show questionsAfter db attemptId =
      db.questions.map (reCat (backfillUpdates db attemptId)) from
      applyUpdates_eq_map _ _]

end Riasec

namespace Riasec

/-- A database whose single dimension-section question lacks a category. -/
def dbBackfill : DB :=
  ⟨[⟨1, 5, "Sec"⟩], [⟨1, 1, 1, none, "LIKERT_SCALE"⟩], [⟨1, 1, "E"⟩]⟩

/-- Witness for C5: the untagged question of `dbBackfill` ends up tagged
`R` (the code of section 5), and a second run reproduces the first. -/
theorem C5_backfill_idempotent_witness :
    (⟨1, 1, 1, some "R", "LIKERT_SCALE"⟩ : Question).category = some "R" ∧
    calculateRIASECScores (calculateRIASECScores dbBackfill 1).2 1 =
      calculateRIASECScores dbBackfill 1 :=
  ⟨(C5_backfill_idempotent dbBackfill 1 (by decide) (by decide)).1
     ⟨⟨1, 1, "E"⟩, ⟨1, 1, 1, none, "LIKERT_SCALE"⟩, ⟨1, 5, "Sec"⟩⟩
     (by decide) "R" (by decide) (by decide)
     ⟨1, 1, 1, some "R", "LIKERT_SCALE"⟩ (by with_unfolding_all decide) rfl,
   (C5_backfill_idempotent dbBackfill 1 (by decide) (by decide)).2⟩

/-- A one-question database whose question carries the stored code `c`
while belonging to the section at position `o`. -/
def c10db (o : ℕ) (c : String) (t : String) : DB :=
  ⟨[⟨1, o, "Sec"⟩], [⟨1, 1, 1, some c, "LIKERT_SCALE"⟩], [⟨1, 1, t⟩]⟩

/-- Claim C10: a question that already carries a valid stored code is left
untouched by the self-healing pass (first part, for any database with
primary-key-unique question ids), and when that code differs from the one
implied by the question's section, the answer is scored under the stored
code, not the section-implied one (second part, over all positions,
differing codes and Likert letters). -/
theorem C10_stored_code_wins :
    (∀ (db : DB) (attemptId : ℕ), (db.questions.map (·.id)).Nodup →
      ∀ q ∈ db.questions, isValidCategory q.category = true →
        q ∈ (calculateRIASECScores db attemptId).2.questions) ∧
    (∀ o ∈ ([5, 6, 7, 8, 9, 10] : List ℕ), ∀ c ∈ riasecCodes,
      ∀ tv ∈ ([("A", (0 : ℚ)), ("B", 25), ("C", 50), ("D", 75),
        ("E", 100)] : List (String × ℚ)),
      ¬orderToRIASEC o = some c →
      scoreOf (calculateRIASECScores (c10db o c tv.1) 1).1 c = tv.2 ∧
      (∀ c2 ∈ riasecCodes, c2 ≠ c →
        scoreOf (calculateRIASECScores (c10db o c tv.1) 1).1 c2 = 0) ∧
      (calculateRIASECScores (c10db o c tv.1) 1).2 = c10db o c tv.1) := by
  constructor
  · intro db attemptId hq q hqm hval
    by_cases h1 : (riasecSectionsOf db).isEmpty
    · unfold calculateRIASECScores
      rw [if_pos h1]
      exact hqm
    by_cases h2 : (joinRows db attemptId).isEmpty
    · unfold calculateRIASECScores
      rw [if_neg h1, if_pos h2]
      exact hqm
    rw [calc_snd_main h1 h2]
    have hno : ∀ u ∈ backfillUpdates db attemptId, u.1 ≠ q.id := by
      intro u hu hui
      obtain ⟨r2, hr2, _, hval2, hui2⟩ := mem_categoryUpdates hu
      have hr2q : r2.q = q :=
        List.inj_on_of_nodup_map hq (mem_joinRows hr2).2.1 hqm
          (hui2 ▸ hui)
      rw [hr2q] at hval2
      simp [hval] at hval2
    refine List.mem_map.mpr ⟨q, hqm, ?_⟩
    show reCat _ q = q
    unfold reCat
    rw [applyCat_no_match hno]
  · with_unfolding_all decide

/-- Witness for C10: a valid `R`-tagged question survives the run intact,
and a question in the `R` section (position 5) whose stored code is `I`
scores dimension `I`, leaving `R` at 0. -/
theorem C10_stored_code_wins_witness :
    (⟨1, 1, 1, some "R", "LIKERT_SCALE"⟩ : Question) ∈
      (calculateRIASECScores dbOneAnswer 1).2.questions ∧
    scoreOf (calculateRIASECScores (c10db 5 "I" "D") 1).1 "I" = 75 ∧
    scoreOf (calculateRIASECScores (c10db 5 "I" "D") 1).1 "R" = 0 :=
  ⟨C10_stored_code_wins.1 dbOneAnswer 1 (by decide) _ (by decide)
     (by decide),
   (C10_stored_code_wins.2 5 (by decide) "I" (by decide) ("D", 75)
     (by decide) (by decide)).1,
   (C10_stored_code_wins.2 5 (by decide) "I" (by decide) ("D", 75)
     (by decide) (by decide)).2.1 "R" (by decide) (by decide)⟩

end Riasec
